import Mathlib

/-!
Shallow embedding of the `dissipative_structures` visualisation repository.

The numeric type of the JavaScript source is modelled by `ℝ`.  Each definition
below mirrors one function or code block of the source; the file then states
and proves the specification claims about those definitions.

Sources embedded here:
* `src/components/ThermodynamicsScene.tsx` — two concatenated variants of the
  particle stepper and the metrics aggregator (namespaces `ThermoA` for the
  first variant, `ThermoB` for the second);
* `src/components/BoidsScene.tsx` — the `Boid` class (namespace `Boids`);
* `src/unnamed/part_001` — the Gray–Scott `simFragmentShader` (namespace `RD`);
* `src/services/geminiService.ts` — `generateExplanation` (namespace `Gemini`).
-/

namespace DS

/-- Idealised `THREE.Vector3` with real components. -/
@[ext] structure Vec3 where
  x : ℝ
  y : ℝ
  z : ℝ

namespace Vec3

/-- Componentwise addition (`Vector3.add`). -/
def add (a b : Vec3) : Vec3 := ⟨a.x + b.x, a.y + b.y, a.z + b.z⟩

/-- Componentwise subtraction (`Vector3.subVectors`/`sub`). -/
def sub (a b : Vec3) : Vec3 := ⟨a.x - b.x, a.y - b.y, a.z - b.z⟩

/-- Scalar multiple (`Vector3.multiplyScalar`). -/
def smul (c : ℝ) (v : Vec3) : Vec3 := ⟨c * v.x, c * v.y, c * v.z⟩

/-- The zero vector (`new THREE.Vector3()`). -/
def zero : Vec3 := ⟨0, 0, 0⟩

/-- `Vector3.addScaledVector v s` adds `s * v`. -/
def addScaledVector (a v : Vec3) (s : ℝ) : Vec3 := a.add (smul s v)

/-- Squared euclidean length (`Vector3.lengthSq`). -/
def lengthSq (v : Vec3) : ℝ := v.x ^ 2 + v.y ^ 2 + v.z ^ 2

/-- Euclidean length (`Vector3.length`). -/
noncomputable def length (v : Vec3) : ℝ := Real.sqrt v.lengthSq

/-- `Vector3.divideScalar s` multiplies by `1 / s`. -/
noncomputable def divideScalar (v : Vec3) (s : ℝ) : Vec3 := smul (1 / s) v

/-- `Vector3.normalize` divides by `length || 1` (three.js guards a zero length). -/
noncomputable def normalize (v : Vec3) : Vec3 :=
  v.divideScalar (if v.length = 0 then 1 else v.length)

/-- `Vector3.clampLength lo hi`: three.js divides by `length || 1` and rescales by
the clamped length. -/
noncomputable def clampLength (v : Vec3) (lo hi : ℝ) : Vec3 :=
  smul (max lo (min hi v.length)) (v.divideScalar (if v.length = 0 then 1 else v.length))

/-- Distance between two points (`Vector3.distanceTo`). -/
noncomputable def distanceTo (a b : Vec3) : ℝ := (a.sub b).length

theorem lengthSq_nonneg (v : Vec3) : 0 ≤ v.lengthSq := by
  have hx := sq_nonneg v.x
  have hy := sq_nonneg v.y
  have hz := sq_nonneg v.z
  unfold lengthSq; linarith

theorem length_nonneg (v : Vec3) : 0 ≤ v.length := Real.sqrt_nonneg _

theorem lengthSq_smul (c : ℝ) (v : Vec3) : (smul c v).lengthSq = c ^ 2 * v.lengthSq := by
  simp only [smul, lengthSq]; ring

theorem length_smul (c : ℝ) (v : Vec3) : (smul c v).length = |c| * v.length := by
  unfold length
  rw [lengthSq_smul, Real.sqrt_mul (sq_nonneg c), Real.sqrt_sq_eq_abs]

theorem length_eq_zero_iff (v : Vec3) : v.length = 0 ↔ v.lengthSq = 0 := by
  unfold length
  constructor
  · intro h
    have := Real.sqrt_eq_zero (lengthSq_nonneg v) |>.mp h
    exact this
  · intro h; rw [h, Real.sqrt_zero]

theorem length_mul_self (v : Vec3) : v.length * v.length = v.lengthSq :=
  Real.mul_self_sqrt (lengthSq_nonneg v)

end Vec3

/-- JavaScript `Math.sign`. -/
noncomputable def jsSign (x : ℝ) : ℝ := if x > 0 then 1 else if x < 0 then -1 else 0

/-- JavaScript truthiness fallback `a || b` on numbers: `0` (and a missing value,
which callers encode as `0`) selects the fallback. -/
noncomputable def jsOr (a b : ℝ) : ℝ := if a = 0 then b else a

/-- A gas particle: position and velocity (`interface Particle`). -/
structure Particle where
  position : Vec3
  velocity : Vec3

/-- The four values of `SimulationData['systemState']` (`src/types.ts`). -/
inductive SystemState where
  | Initializing
  | NearEquilibrium
  | SteadyState
  | Chaotic
deriving DecidableEq

/-- The record passed to `onDataUpdate` (`SimulationData` of `src/types.ts`). -/
structure SimulationData where
  temperatureGradient : List ℝ
  entropyProduction : ℝ
  systemState : SystemState

/-! ## First variant of `ThermodynamicsScene.tsx` -/

namespace ThermoA

def BOX_SIZE : ℝ := 6
def SLICES : ℕ := 10
noncomputable def halfBox : ℝ := BOX_SIZE / 2

/-- Result of one particle's pass through the `useFrame` loop body: the updated
particle and its contributions to the `energyIn` and `energyOut` accumulators. -/
structure StepOut where
  particle : Particle
  energyIn : ℝ
  energyOut : ℝ

/-- X-wall block of the first variant: reflect `velocity.x`, clamp `position.x`
to `sign(position.x) * halfBox`; at the hot wall (`position.x > 0`) add
`sign(velocity.x) * heat * 0.1` to `velocity.x` and scale the velocity by
`1.01`; at the cold wall scale it by `0.9`. -/
noncomputable def stepXA (heat : ℝ) (p : Particle) : StepOut :=
  if |p.position.x| > halfBox then
    let v1 : Vec3 := ⟨-p.velocity.x, p.velocity.y, p.velocity.z⟩
    let pos2 : Vec3 := ⟨jsSign p.position.x * halfBox, p.position.y, p.position.z⟩
    if pos2.x > 0 then
      let oldSpeed := v1.length
      let v2 : Vec3 := ⟨v1.x + jsSign v1.x * (heat * 0.1), v1.y, v1.z⟩
      let v3 := Vec3.smul 1.01 v2
      ⟨⟨pos2, v3⟩, v3.lengthSq - oldSpeed * oldSpeed, 0⟩
    else
      let oldSpeed := v1.length
      let v2 := Vec3.smul 0.9 v1
      ⟨⟨pos2, v2⟩, 0, oldSpeed * oldSpeed - v2.lengthSq⟩
  else ⟨p, 0, 0⟩

/-- Y-wall block of the first variant: only the velocity is reflected. -/
noncomputable def stepYA (p : Particle) : Particle :=
  if |p.position.y| > halfBox then
    ⟨p.position, ⟨p.velocity.x, -p.velocity.y, p.velocity.z⟩⟩
  else p

/-- Z-wall block of the first variant: only the velocity is reflected. -/
noncomputable def stepZA (p : Particle) : Particle :=
  if |p.position.z| > halfBox then
    ⟨p.position, ⟨p.velocity.x, p.velocity.y, -p.velocity.z⟩⟩
  else p

/-- One tick of the first-variant stepper for a single particle: move by
`velocity * (delta * 60)`, then the X, Y and Z wall blocks in source order. -/
noncomputable def stepParticleA (heat delta : ℝ) (p : Particle) : StepOut :=
  let moved : Particle := ⟨p.position.addScaledVector p.velocity (delta * 60), p.velocity⟩
  let xOut := stepXA heat moved
  ⟨stepZA (stepYA xOut.particle), xOut.energyIn, xOut.energyOut⟩

/-- Slice index of an X coordinate: `Math.floor(((x + halfBox) / BOX_SIZE) * SLICES)`. -/
noncomputable def sliceIndex (x : ℝ) : ℤ := ⌊((x + halfBox) / BOX_SIZE) * (SLICES : ℝ)⌋

/-- Accumulated `sliceEnergies[i]`: each particle whose slice index passes the
`0 <= index < SLICES` guard adds `speed * speed` to its slice cell (for a cell
`i < SLICES` this is exactly the particles with slice index `i`). -/
noncomputable def sliceEnergy : List Particle → ℕ → ℝ
  | [], _ => 0
  | p :: ps, i =>
      (if sliceIndex p.position.x = (i : ℤ) then p.velocity.length * p.velocity.length else 0)
        + sliceEnergy ps i

/-- Accumulated `sliceCounts[i]`. -/
noncomputable def sliceCount : List Particle → ℕ → ℕ
  | [], _ => 0
  | p :: ps, i =>
      (if sliceIndex p.position.x = (i : ℤ) then 1 else 0) + sliceCount ps i

/-- Entry `i` of `temperatureGradient`: `sliceCounts[i] > 0 ? energy / count : 0`. -/
noncomputable def gradientEntry (ps : List Particle) (i : ℕ) : ℝ :=
  if sliceCount ps i > 0 then sliceEnergy ps i / (sliceCount ps i : ℝ) else 0

/-- `temperatureGradient = sliceEnergies.map((energy, i) => ...)`. -/
noncomputable def temperatureGradient (ps : List Particle) : List ℝ :=
  (List.range SLICES).map (gradientEntry ps)

/-- `tempHot = temperatureGradient[temperatureGradient.length - 1] || 1`. -/
noncomputable def tempHot (ps : List Particle) : ℝ :=
  jsOr ((temperatureGradient ps).getD (SLICES - 1) 0) 1

/-- `tempCold = temperatureGradient[0] || 0.1`. -/
noncomputable def tempCold (ps : List Particle) : ℝ :=
  jsOr ((temperatureGradient ps).getD 0 0) 0.1

/-- The signed entropy production before the `Math.max(0, ...)` clamp:
`energyIn / Math.max(0.1, tempHot) - energyOut / Math.max(0.1, tempCold)`. -/
noncomputable def entropyRaw (ps : List Particle) (energyIn energyOut : ℝ) : ℝ :=
  energyIn / max 0.1 (tempHot ps) - energyOut / max 0.1 (tempCold ps)

/-- `gradientStdDev`: square root of the mean squared deviation of the gradient
entries from the midpoint `(tempHot + tempCold) / 2`. -/
noncomputable def gradientStdDev (ps : List Particle) : ℝ :=
  Real.sqrt
    (((temperatureGradient ps).map
        (fun t => (t - (tempHot ps + tempCold ps) / 2) ^ 2)).sum / (SLICES : ℝ))

/-- The `systemState` if-chain: `Near Equilibrium` when `heat < 0.001`, else
`Steady State` when `gradientStdDev > 0.01 && |entropyProduction| > 0.01`
(with the signed, pre-clamp entropy production), else the `Chaotic` default. -/
noncomputable def systemState (heat : ℝ) (ps : List Particle)
    (energyIn energyOut : ℝ) : SystemState :=
  if heat < 0.001 then .NearEquilibrium
  else if gradientStdDev ps > 0.01 ∧ |entropyRaw ps energyIn energyOut| > 0.01 then
    .SteadyState
  else .Chaotic

/-- The record handed to `onDataUpdate`: the gradient, the clamped
`Math.max(0, entropyProduction)`, and the classified state. -/
noncomputable def aggregate (heat : ℝ) (ps : List Particle)
    (energyIn energyOut : ℝ) : SimulationData :=
  { temperatureGradient := temperatureGradient ps
    entropyProduction := max 0 (entropyRaw ps energyIn energyOut)
    systemState := systemState heat ps energyIn energyOut }

end ThermoA

/-! ## Second variant of `ThermodynamicsScene.tsx` -/

namespace ThermoB

def BOX_SIZE : ℝ := 5
noncomputable def halfBox : ℝ := BOX_SIZE / 2

/-- X-wall block of the second variant: reflect `velocity.x`, clamp
`position.x`; at the hot wall add `sign(velocity.x) * heat` to `velocity.x`
(no extra scaling); at the cold wall scale the velocity by `0.95`. -/
noncomputable def stepXB (heat : ℝ) (p : Particle) : ThermoA.StepOut :=
  if |p.position.x| > halfBox then
    let v1 : Vec3 := ⟨-p.velocity.x, p.velocity.y, p.velocity.z⟩
    let pos2 : Vec3 := ⟨jsSign p.position.x * halfBox, p.position.y, p.position.z⟩
    if pos2.x > 0 then
      let oldSpeed := v1.length
      let v2 : Vec3 := ⟨v1.x + jsSign v1.x * heat, v1.y, v1.z⟩
      ⟨⟨pos2, v2⟩, v2.lengthSq - oldSpeed * oldSpeed, 0⟩
    else
      let oldSpeed := v1.length
      let v2 := Vec3.smul 0.95 v1
      ⟨⟨pos2, v2⟩, 0, oldSpeed * oldSpeed - v2.lengthSq⟩
  else ⟨p, 0, 0⟩

/-- Y-wall block of the second variant: reflect the velocity and clamp the
position to `sign(position.y) * halfBox`. -/
noncomputable def stepYB (p : Particle) : Particle :=
  if |p.position.y| > halfBox then
    ⟨⟨p.position.x, jsSign p.position.y * halfBox, p.position.z⟩,
     ⟨p.velocity.x, -p.velocity.y, p.velocity.z⟩⟩
  else p

/-- Z-wall block of the second variant: reflect the velocity and clamp the
position to `sign(position.z) * halfBox`. -/
noncomputable def stepZB (p : Particle) : Particle :=
  if |p.position.z| > halfBox then
    ⟨⟨p.position.x, p.position.y, jsSign p.position.z * halfBox⟩,
     ⟨p.velocity.x, p.velocity.y, -p.velocity.z⟩⟩
  else p

/-- One tick of the second-variant stepper for a single particle. -/
noncomputable def stepParticleB (heat delta : ℝ) (p : Particle) : ThermoA.StepOut :=
  let moved : Particle := ⟨p.position.addScaledVector p.velocity (delta * 60), p.velocity⟩
  let xOut := stepXB heat moved
  ⟨stepZB (stepYB xOut.particle), xOut.energyIn, xOut.energyOut⟩

end ThermoB

/-! ## `BoidsScene.tsx` -/

namespace Boids

def BOUNDS : ℝ := 25
def MAX_SPEED : ℝ := 0.25
def MAX_FORCE : ℝ := 0.01
def PERCEPTION_RADIUS : ℝ := 3
def SEPARATION_DISTANCE : ℝ := 1.0

/-- Mutable state of a `Boid` (colour omitted). -/
structure BoidState where
  position : Vec3
  velocity : Vec3
  acceleration : Vec3

/-- Separation accumulation of `Boid.flock`: every other boid at distance
`0 < d < PERCEPTION_RADIUS` and `d < SEPARATION_DISTANCE` contributes
`normalize(self - other) / d`. -/
noncomputable def flockSeparation (self : Vec3) (others : List Vec3) : Vec3 :=
  others.foldl
    (fun acc o =>
      let d := self.distanceTo o
      if 0 < d ∧ d < PERCEPTION_RADIUS then
        if d < SEPARATION_DISTANCE then
          acc.add (((self.sub o).normalize).divideScalar d)
        else acc
      else acc)
    Vec3.zero

/-- The separation rule as the specification words it: each neighbour at
distance `0 < d < SEPARATION_DISTANCE` contributes `(self - other) / d`. -/
noncomputable def claimedSeparation (self : Vec3) (others : List Vec3) : Vec3 :=
  others.foldl
    (fun acc o =>
      let d := self.distanceTo o
      if 0 < d ∧ d < SEPARATION_DISTANCE then
        acc.add ((self.sub o).divideScalar d)
      else acc)
    Vec3.zero

/-- The same accumulation with each neighbour's contribution rewritten as
`(self - other) / d²` (the closed form of `normalize(self - other) / d`). -/
noncomputable def separationBySquare (self : Vec3) (others : List Vec3) : Vec3 :=
  others.foldl
    (fun acc o =>
      let d := self.distanceTo o
      if 0 < d ∧ d < SEPARATION_DISTANCE then
        acc.add ((self.sub o).divideScalar (d * d))
      else acc)
    Vec3.zero

/-- One-axis boundary handling of `Boid.wrap`. -/
noncomputable def wrap1 (x : ℝ) : ℝ :=
  let half := BOUNDS / 2
  let x1 := if x > half then -half else x
  if x1 < -half then half else x1

/-- `Boid.wrap` applies the two sign checks on each axis. -/
noncomputable def wrap (pos : Vec3) : Vec3 := ⟨wrap1 pos.x, wrap1 pos.y, wrap1 pos.z⟩

/-- `Boid.update`: add the acceleration to the velocity, clamp the velocity
length to `MAX_SPEED`, advance the position, zero the acceleration, wrap. -/
noncomputable def update (b : BoidState) : BoidState :=
  let v1 := (b.velocity.add b.acceleration).clampLength 0 MAX_SPEED
  let pos1 := b.position.add v1
  ⟨wrap pos1, v1, Vec3.smul 0 b.acceleration⟩

end Boids

/-! ## Gray–Scott `simFragmentShader` of `src/unnamed/part_001` -/

namespace RD

def Du : ℝ := 0.16
def Dv : ℝ := 0.08
def dt : ℝ := 1.0

/-- A pair of shader channels `.rg`, i.e. `(u, v)`. -/
abbrev Cell := ℝ × ℝ

/-- GLSL `clamp(x, 0.0, 1.0)`. -/
noncomputable def clamp01 (x : ℝ) : ℝ := min (max x 0) 1

/-- The shader's `laplacian`: axis neighbours weighted `0.2`, diagonal
neighbours `0.05`, centre `-1`, componentwise on `(u, v)`. -/
noncomputable def laplacian (g : ℤ → ℤ → Cell) (i j : ℤ) : Cell :=
  let center := g i j
  let n := g i (j + 1)
  let s := g i (j - 1)
  let e := g (i + 1) j
  let w := g (i - 1) j
  let ne := g (i + 1) (j + 1)
  let nw := g (i - 1) (j + 1)
  let se := g (i + 1) (j - 1)
  let sw := g (i - 1) (j - 1)
  ((n.1 + s.1 + e.1 + w.1) * 0.2 + (ne.1 + nw.1 + se.1 + sw.1) * 0.05 - center.1,
   (n.2 + s.2 + e.2 + w.2) * 0.2 + (ne.2 + nw.2 + se.2 + sw.2) * 0.05 - center.2)

/-- The shader's `main` on one cell, reading every sample from the pre-step
grid `g` (the double-buffered source texture). -/
noncomputable def stepCell (feed kill : ℝ) (g : ℤ → ℤ → Cell) (i j : ℤ) : Cell :=
  let uv := g i j
  let L := laplacian g i j
  let reaction := uv.1 * uv.2 * uv.2
  let u_new := uv.1 + (Du * L.1 - reaction + feed * (1 - uv.1)) * dt
  let v_new := uv.2 + (Dv * L.2 + reaction - (feed + kill) * uv.2) * dt
  (clamp01 u_new, clamp01 v_new)

/-- One full simulation pass over the grid. -/
noncomputable def grayScottStep (feed kill : ℝ) (g : ℤ → ℤ → Cell) : ℤ → ℤ → Cell :=
  fun i j => stepCell feed kill g i j

/-- The uniform grid `u = 1`, `v = 0` at every cell. -/
noncomputable def uniformGrid : ℤ → ℤ → Cell := fun _ _ => (1, 0)

end RD

/-! ## `src/services/geminiService.ts` -/

namespace Gemini

/-- `SimulationParams` of `src/types.ts`. -/
structure SimulationParams where
  particleCount : ℕ
  heat : ℝ
  isPaused : Bool

/-- What `generateExplanation` does before any asynchronous resolution:
either it resolves immediately with a fixed message, or it issues a network
request to the model named `modelName` built from the inputs. -/
inductive ExplanationOutcome where
  | resolved (message : String)
  | networkRequest (modelName : String) (params : SimulationParams) (data : SimulationData)

/-- The fixed advisory string returned when no API key is configured. -/
def advisoryMessage : String :=
  "API Key is not configured. Please set the `process.env.API_KEY` environment variable to use this feature."

/-- JavaScript truthiness of `process.env.API_KEY`: `undefined` and the empty
string are falsy. -/
def apiKeyTruthy : Option String → Bool
  | none => false
  | some s => !s.isEmpty

/-- `generateExplanation`: `if (!API_KEY)` resolve with the advisory string,
otherwise build the prompt and call `ai.models.generateContent` with model
`gemini-2.5-flash`. -/
def generateExplanation (apiKey : Option String) (params : SimulationParams)
    (data : SimulationData) : ExplanationOutcome :=
  if apiKeyTruthy apiKey then .networkRequest "gemini-2.5-flash" params data
  else .resolved advisoryMessage

end Gemini

/-! ## Claim-side definitions (worded as the specification words them) -/

/-- Specification wording for `tempHot`: the gradient value of the hottest
(last) slice, with fallback `1` if it is undefined or zero. -/
noncomputable def tempHotSpec (g : List ℝ) : ℝ :=
  match g.getLast? with
  | none => 1
  | some v => if v = 0 then 1 else v

/-- Specification wording for `tempCold`: the gradient value of the coldest
(first) slice, with fallback `0.1` if it is undefined or zero. -/
noncomputable def tempColdSpec (g : List ℝ) : ℝ :=
  match g.head? with
  | none => 0.1
  | some v => if v = 0 then 0.1 else v

/-! ## Helper lemmas -/

theorem range10_map {α : Type} (f : ℕ → α) :
    (List.range 10).map f = [f 0, f 1, f 2, f 3, f 4, f 5, f 6, f 7, f 8, f 9] := by
  have h : List.range 10 = [0, 1, 2, 3, 4, 5, 6, 7, 8, 9] := by decide
  rw [h]
  rfl

theorem temperatureGradient_explicit (ps : List Particle) :
    ThermoA.temperatureGradient ps =
      [ThermoA.gradientEntry ps 0, ThermoA.gradientEntry ps 1, ThermoA.gradientEntry ps 2,
       ThermoA.gradientEntry ps 3, ThermoA.gradientEntry ps 4, ThermoA.gradientEntry ps 5,
       ThermoA.gradientEntry ps 6, ThermoA.gradientEntry ps 7, ThermoA.gradientEntry ps 8,
       ThermoA.gradientEntry ps 9] := by
  unfold ThermoA.temperatureGradient ThermoA.SLICES
  exact range10_map _

theorem tempHot_eq_spec (ps : List Particle) :
    ThermoA.tempHot ps = tempHotSpec (ThermoA.temperatureGradient ps) := by
  unfold ThermoA.tempHot tempHotSpec jsOr ThermoA.SLICES
  rw [temperatureGradient_explicit ps]
  rfl

theorem tempCold_eq_spec (ps : List Particle) :
    ThermoA.tempCold ps = tempColdSpec (ThermoA.temperatureGradient ps) := by
  unfold ThermoA.tempCold tempColdSpec jsOr
  rw [temperatureGradient_explicit ps]
  rfl

theorem gradientEntry_eq_mean (ps : List Particle) (i : ℕ) :
    ThermoA.gradientEntry ps i =
      if ThermoA.sliceCount ps i = 0 then 0
      else ThermoA.sliceEnergy ps i / (ThermoA.sliceCount ps i : ℝ) := by
  unfold ThermoA.gradientEntry
  rcases Nat.eq_zero_or_pos (ThermoA.sliceCount ps i) with h | h
  · simp [h]
  · rw [if_pos h, if_neg (Nat.pos_iff_ne_zero.mp h)]

/-! ## C2: the reported entropy production formula -/

/-- C2: for every post-step particle configuration and energy tallies, the
aggregator's reported `entropyProduction` equals
`max(0, energyIn / max(0.1, tempHot) − energyOut / max(0.1, tempCold))`, where
`tempHot` is the last gradient slice value with fallback `1` when undefined or
zero and `tempCold` is the first slice value with fallback `0.1`. -/
theorem C2_entropy_formula (heat : ℝ) (ps : List Particle) (energyIn energyOut : ℝ) :
    (ThermoA.aggregate heat ps energyIn energyOut).entropyProduction =
      max 0 (energyIn / max 0.1 (tempHotSpec (ThermoA.temperatureGradient ps))
        - energyOut / max 0.1 (tempColdSpec (ThermoA.temperatureGradient ps))) := by
  unfold ThermoA.aggregate ThermoA.entropyRaw
  rw [tempHot_eq_spec, tempCold_eq_spec]

/-! ## C3: metrics totality -/

/-- C3: for every particle configuration (including empty slices) the
aggregator returns a complete record: a gradient of exactly 10 entries whose
`i`-th entry is the mean kinetic energy of the particles in slice `i` (`0` for
an empty slice), a non-negative entropy production, and a system state among
the four defined labels. -/
theorem C3_metrics_totality (heat : ℝ) (ps : List Particle) (energyIn energyOut : ℝ) :
    (ThermoA.aggregate heat ps energyIn energyOut).temperatureGradient.length = 10 ∧
    (∀ i : Fin 10,
      (ThermoA.aggregate heat ps energyIn energyOut).temperatureGradient.getD i 0 =
        if ThermoA.sliceCount ps i = 0 then 0
        else ThermoA.sliceEnergy ps i / (ThermoA.sliceCount ps i : ℝ)) ∧
    0 ≤ (ThermoA.aggregate heat ps energyIn energyOut).entropyProduction ∧
    ((ThermoA.aggregate heat ps energyIn energyOut).systemState = .Initializing ∨
     (ThermoA.aggregate heat ps energyIn energyOut).systemState = .NearEquilibrium ∨
     (ThermoA.aggregate heat ps energyIn energyOut).systemState = .SteadyState ∨
     (ThermoA.aggregate heat ps energyIn energyOut).systemState = .Chaotic) := by
  refine ⟨?_, ?_, ?_, ?_⟩
  · rw [show (ThermoA.aggregate heat ps energyIn energyOut).temperatureGradient
        = ThermoA.temperatureGradient ps from rfl, temperatureGradient_explicit]
    rfl
  · intro i
    rw [show (ThermoA.aggregate heat ps energyIn energyOut).temperatureGradient
        = ThermoA.temperatureGradient ps from rfl, temperatureGradient_explicit]
    fin_cases i <;> exact gradientEntry_eq_mean ps _
  · exact le_max_left 0 _
  · rw [show (ThermoA.aggregate heat ps energyIn energyOut).systemState
        = ThermoA.systemState heat ps energyIn energyOut from rfl]
    unfold ThermoA.systemState
    split_ifs <;> simp

/-! ## Wall-interaction helper lemmas -/

theorem jsSign_of_pos {x : ℝ} (h : 0 < x) : jsSign x = 1 := by
  unfold jsSign
  rw [if_pos h]

theorem jsSign_of_neg {x : ℝ} (h : x < 0) : jsSign x = -1 := by
  unfold jsSign
  rw [if_neg (not_lt.mpr h.le), if_pos h]

theorem abs_jsSign_mul {x c : ℝ} (hc : 0 ≤ c) (hx : x ≠ 0) : |jsSign x * c| = c := by
  rcases lt_trichotomy x 0 with h | h | h
  · rw [jsSign_of_neg h, neg_one_mul, abs_neg, abs_of_nonneg hc]
  · exact absurd h hx
  · rw [jsSign_of_pos h, one_mul, abs_of_nonneg hc]

theorem halfBoxA_pos : 0 < ThermoA.halfBox := by
  norm_num [ThermoA.halfBox, ThermoA.BOX_SIZE]

theorem halfBoxB_pos : 0 < ThermoB.halfBox := by
  norm_num [ThermoB.halfBox, ThermoB.BOX_SIZE]

theorem lengthSq_flipX (v : Vec3) : Vec3.lengthSq ⟨-v.x, v.y, v.z⟩ = v.lengthSq := by
  simp [Vec3.lengthSq]

theorem lengthSq_flipY (v : Vec3) : Vec3.lengthSq ⟨v.x, -v.y, v.z⟩ = v.lengthSq := by
  simp [Vec3.lengthSq]

theorem lengthSq_flipZ (v : Vec3) : Vec3.lengthSq ⟨v.x, v.y, -v.z⟩ = v.lengthSq := by
  simp [Vec3.lengthSq]

theorem stepXA_hot_eq (heat : ℝ) (p : Particle) (h : ThermoA.halfBox < p.position.x) :
    ThermoA.stepXA heat p =
      ⟨⟨⟨ThermoA.halfBox, p.position.y, p.position.z⟩,
         Vec3.smul 1.01 ⟨-p.velocity.x + jsSign (-p.velocity.x) * (heat * 0.1),
           p.velocity.y, p.velocity.z⟩⟩,
       (Vec3.smul 1.01 ⟨-p.velocity.x + jsSign (-p.velocity.x) * (heat * 0.1),
           p.velocity.y, p.velocity.z⟩).lengthSq
         - Vec3.length ⟨-p.velocity.x, p.velocity.y, p.velocity.z⟩
             * Vec3.length ⟨-p.velocity.x, p.velocity.y, p.velocity.z⟩,
       0⟩ := by
  have hpos : 0 < p.position.x := lt_trans halfBoxA_pos h
  have habs : |p.position.x| > ThermoA.halfBox := by
    rw [abs_of_pos hpos]
    exact h
  simp only [ThermoA.stepXA]
  rw [if_pos habs, jsSign_of_pos hpos, one_mul,
    if_pos (show (0 : ℝ) < ThermoA.halfBox from halfBoxA_pos)]

theorem stepXA_cold_eq (heat : ℝ) (p : Particle) (h : p.position.x < -ThermoA.halfBox) :
    ThermoA.stepXA heat p =
      ⟨⟨⟨-ThermoA.halfBox, p.position.y, p.position.z⟩,
         Vec3.smul 0.9 ⟨-p.velocity.x, p.velocity.y, p.velocity.z⟩⟩,
       0,
       Vec3.length ⟨-p.velocity.x, p.velocity.y, p.velocity.z⟩
           * Vec3.length ⟨-p.velocity.x, p.velocity.y, p.velocity.z⟩
         - (Vec3.smul 0.9 ⟨-p.velocity.x, p.velocity.y, p.velocity.z⟩).lengthSq⟩ := by
  have hneg : p.position.x < 0 := lt_trans h (by linarith [halfBoxA_pos])
  have habs : |p.position.x| > ThermoA.halfBox := by
    rw [abs_of_neg hneg]
    linarith
  simp only [ThermoA.stepXA]
  rw [if_pos habs, jsSign_of_neg hneg, neg_one_mul,
    if_neg (show ¬(0 : ℝ) < -ThermoA.halfBox by linarith [halfBoxA_pos])]

theorem stepXA_none_eq (heat : ℝ) (p : Particle) (h : ¬|p.position.x| > ThermoA.halfBox) :
    ThermoA.stepXA heat p = ⟨p, 0, 0⟩ := by
  simp only [ThermoA.stepXA]
  rw [if_neg h]

theorem stepYA_position (p : Particle) : (ThermoA.stepYA p).position = p.position := by
  unfold ThermoA.stepYA
  split_ifs <;> rfl

theorem stepZA_position (p : Particle) : (ThermoA.stepZA p).position = p.position := by
  unfold ThermoA.stepZA
  split_ifs <;> rfl

theorem stepYA_velocity_lengthSq (p : Particle) :
    (ThermoA.stepYA p).velocity.lengthSq = p.velocity.lengthSq := by
  unfold ThermoA.stepYA
  split_ifs
  · exact lengthSq_flipY p.velocity
  · rfl

theorem stepZA_velocity_lengthSq (p : Particle) :
    (ThermoA.stepZA p).velocity.lengthSq = p.velocity.lengthSq := by
  unfold ThermoA.stepZA
  split_ifs
  · exact lengthSq_flipZ p.velocity
  · rfl

theorem stepXB_hot_eq (heat : ℝ) (p : Particle) (h : ThermoB.halfBox < p.position.x) :
    ThermoB.stepXB heat p =
      ⟨⟨⟨ThermoB.halfBox, p.position.y, p.position.z⟩,
         ⟨-p.velocity.x + jsSign (-p.velocity.x) * heat, p.velocity.y, p.velocity.z⟩⟩,
       Vec3.lengthSq ⟨-p.velocity.x + jsSign (-p.velocity.x) * heat,
           p.velocity.y, p.velocity.z⟩
         - Vec3.length ⟨-p.velocity.x, p.velocity.y, p.velocity.z⟩
             * Vec3.length ⟨-p.velocity.x, p.velocity.y, p.velocity.z⟩,
       0⟩ := by
  have hpos : 0 < p.position.x := lt_trans halfBoxB_pos h
  have habs : |p.position.x| > ThermoB.halfBox := by
    rw [abs_of_pos hpos]
    exact h
  simp only [ThermoB.stepXB]
  rw [if_pos habs, jsSign_of_pos hpos, one_mul,
    if_pos (show (0 : ℝ) < ThermoB.halfBox from halfBoxB_pos)]

theorem stepXB_cold_eq (heat : ℝ) (p : Particle) (h : p.position.x < -ThermoB.halfBox) :
    ThermoB.stepXB heat p =
      ⟨⟨⟨-ThermoB.halfBox, p.position.y, p.position.z⟩,
         Vec3.smul 0.95 ⟨-p.velocity.x, p.velocity.y, p.velocity.z⟩⟩,
       0,
       Vec3.length ⟨-p.velocity.x, p.velocity.y, p.velocity.z⟩
           * Vec3.length ⟨-p.velocity.x, p.velocity.y, p.velocity.z⟩
         - (Vec3.smul 0.95 ⟨-p.velocity.x, p.velocity.y, p.velocity.z⟩).lengthSq⟩ := by
  have hneg : p.position.x < 0 := lt_trans h (by linarith [halfBoxB_pos])
  have habs : |p.position.x| > ThermoB.halfBox := by
    rw [abs_of_neg hneg]
    linarith
  simp only [ThermoB.stepXB]
  rw [if_pos habs, jsSign_of_neg hneg, neg_one_mul,
    if_neg (show ¬(0 : ℝ) < -ThermoB.halfBox by linarith [halfBoxB_pos])]

theorem stepXB_none_eq (heat : ℝ) (p : Particle) (h : ¬|p.position.x| > ThermoB.halfBox) :
    ThermoB.stepXB heat p = ⟨p, 0, 0⟩ := by
  simp only [ThermoB.stepXB]
  rw [if_neg h]

theorem stepYB_x (p : Particle) : (ThermoB.stepYB p).position.x = p.position.x := by
  unfold ThermoB.stepYB
  split_ifs <;> rfl

theorem stepYB_z (p : Particle) : (ThermoB.stepYB p).position.z = p.position.z := by
  unfold ThermoB.stepYB
  split_ifs <;> rfl

theorem stepZB_x (p : Particle) : (ThermoB.stepZB p).position.x = p.position.x := by
  unfold ThermoB.stepZB
  split_ifs <;> rfl

theorem stepZB_y (p : Particle) : (ThermoB.stepZB p).position.y = p.position.y := by
  unfold ThermoB.stepZB
  split_ifs <;> rfl

theorem stepYB_y_bound (p : Particle) : |(ThermoB.stepYB p).position.y| ≤ ThermoB.halfBox := by
  unfold ThermoB.stepYB
  split_ifs with h
  · have hy : p.position.y ≠ 0 := by
      intro h0
      rw [h0, abs_zero] at h
      linarith [halfBoxB_pos]
    show |jsSign p.position.y * ThermoB.halfBox| ≤ ThermoB.halfBox
    rw [abs_jsSign_mul halfBoxB_pos.le hy]
  · exact not_lt.mp h

theorem stepZB_z_bound (p : Particle) : |(ThermoB.stepZB p).position.z| ≤ ThermoB.halfBox := by
  unfold ThermoB.stepZB
  split_ifs with h
  · have hz : p.position.z ≠ 0 := by
      intro h0
      rw [h0, abs_zero] at h
      linarith [halfBoxB_pos]
    show |jsSign p.position.z * ThermoB.halfBox| ≤ ThermoB.halfBox
    rw [abs_jsSign_mul halfBoxB_pos.le hz]
  · exact not_lt.mp h

theorem stepYB_velocity_lengthSq (p : Particle) :
    (ThermoB.stepYB p).velocity.lengthSq = p.velocity.lengthSq := by
  unfold ThermoB.stepYB
  split_ifs
  · exact lengthSq_flipY p.velocity
  · rfl

theorem stepZB_velocity_lengthSq (p : Particle) :
    (ThermoB.stepZB p).velocity.lengthSq = p.velocity.lengthSq := by
  unfold ThermoB.stepZB
  split_ifs
  · exact lengthSq_flipZ p.velocity
  · rfl

/-! ## C1: state classification -/

/-- A concrete post-step configuration: one particle resting on the cold wall
after a cold-wall bounce (position `(-3, 0, 0)`, velocity `(1.8, 0, 0)`,
`energyIn = 0`, `energyOut = 0.76`). -/
noncomputable def coldTickParticles : List Particle := [⟨⟨-3, 0, 0⟩, ⟨1.8, 0, 0⟩⟩]

theorem sliceIndex_neg_halfBox : ThermoA.sliceIndex (-3 : ℝ) = 0 := by
  unfold ThermoA.sliceIndex ThermoA.halfBox ThermoA.BOX_SIZE ThermoA.SLICES
  norm_num

theorem coldTick_gradient :
    ThermoA.temperatureGradient coldTickParticles
      = [3.24, 0, 0, 0, 0, 0, 0, 0, 0, 0] := by
  rw [temperatureGradient_explicit]
  norm_num [coldTickParticles, ThermoA.gradientEntry, ThermoA.sliceCount,
    ThermoA.sliceEnergy, sliceIndex_neg_halfBox, Vec3.length_mul_self, Vec3.lengthSq]

theorem coldTick_tempHot : ThermoA.tempHot coldTickParticles = 1 := by
  unfold ThermoA.tempHot
  rw [coldTick_gradient]
  show jsOr (0 : ℝ) 1 = 1
  unfold jsOr
  norm_num

theorem coldTick_tempCold : ThermoA.tempCold coldTickParticles = 3.24 := by
  unfold ThermoA.tempCold
  rw [coldTick_gradient]
  show jsOr (3.24 : ℝ) 0.1 = 3.24
  unfold jsOr
  norm_num

theorem coldTick_entropyRaw :
    ThermoA.entropyRaw coldTickParticles 0 0.76 = -(19 / 81) := by
  unfold ThermoA.entropyRaw
  rw [coldTick_tempHot, coldTick_tempCold,
    max_eq_right (by norm_num : (0.1 : ℝ) ≤ 1),
    max_eq_right (by norm_num : (0.1 : ℝ) ≤ 3.24)]
  norm_num

theorem coldTick_stdDev_gt : ThermoA.gradientStdDev coldTickParticles > 0.01 := by
  unfold ThermoA.gradientStdDev ThermoA.SLICES
  rw [coldTick_gradient, coldTick_tempHot, coldTick_tempCold]
  have hsum :
      (([3.24, 0, 0, 0, 0, 0, 0, 0, 0, 0] : List ℝ).map
          (fun t => (t - (1 + 3.24) / 2) ^ 2)).sum / (((10 : ℕ) : ℝ)) = 4.1704 := by
    norm_num [List.sum_cons]
  rw [hsum]
  rw [gt_iff_lt, Real.lt_sqrt (by norm_num)]
  norm_num

/-- C1 (amended): the classification uses the signed, pre-clamp entropy
production. For every post-step configuration: when `heat < 0.001` the state
is `Near Equilibrium` (priority over all other checks); when `heat ≥ 0.001`
the state is `Steady State` exactly when the gradient standard deviation
exceeds `0.01` and the absolute value of the *pre-clamp* entropy production
exceeds `0.01`, and `Chaotic` otherwise. -/
theorem C1_state_classification (heat : ℝ) (ps : List Particle)
    (energyIn energyOut : ℝ) :
    (heat < 0.001 →
      ThermoA.systemState heat ps energyIn energyOut = .NearEquilibrium) ∧
    (0.001 ≤ heat →
      (ThermoA.systemState heat ps energyIn energyOut = .SteadyState ↔
        ThermoA.gradientStdDev ps > 0.01 ∧
          |ThermoA.entropyRaw ps energyIn energyOut| > 0.01) ∧
      (¬(ThermoA.gradientStdDev ps > 0.01 ∧
          |ThermoA.entropyRaw ps energyIn energyOut| > 0.01) →
        ThermoA.systemState heat ps energyIn energyOut = .Chaotic)) := by
  constructor
  · intro h
    unfold ThermoA.systemState
    rw [if_pos h]
  · intro h
    unfold ThermoA.systemState
    rw [if_neg (not_lt.mpr h)]
    split_ifs with hc
    · exact ⟨by simp [hc], fun hnc => absurd hc hnc⟩
    · exact ⟨by simp [hc], fun _ => rfl⟩

/-- C1 counterexample: with `heat = 0.05 ≥ 0.001` and the cold-tick
configuration, the code classifies `Steady State`, yet the claim's condition
built on the clamped `max(0, entropyProduction)` is false (the clamped value
is `0`), so the claimed equivalence fails at this input. -/
theorem C1_counterexample :
    (0.001 : ℝ) ≤ 0.05 ∧
    ThermoA.systemState 0.05 coldTickParticles 0 0.76 = .SteadyState ∧
    ¬(ThermoA.gradientStdDev coldTickParticles > 0.01 ∧
      |max 0 (ThermoA.entropyRaw coldTickParticles 0 0.76)| > 0.01) := by
  refine ⟨by norm_num, ?_, ?_⟩
  · unfold ThermoA.systemState
    rw [if_neg (by norm_num), if_pos ?_]
    refine ⟨coldTick_stdDev_gt, ?_⟩
    rw [coldTick_entropyRaw, abs_neg, abs_of_nonneg (by norm_num : (0 : ℝ) ≤ 19 / 81)]
    norm_num
  · rw [coldTick_entropyRaw]
    intro h
    have h2 := h.2
    rw [max_eq_left (by norm_num : -(19 / 81 : ℝ) ≤ 0)] at h2
    norm_num at h2

/-- Witness for C1 at a concrete heat value and configuration on each branch:
below the heat threshold, above it with the steady condition true, and above
it with the steady condition false (empty configuration, `Chaotic`). -/
theorem C1_state_classification_witness :
    ((0.0005 : ℝ) < 0.001 ∧
      ThermoA.systemState 0.0005 coldTickParticles 0 0.76 = .NearEquilibrium) ∧
    ((0.001 : ℝ) ≤ 0.05 ∧
      (ThermoA.systemState 0.05 coldTickParticles 0 0.76 = .SteadyState ↔
        ThermoA.gradientStdDev coldTickParticles > 0.01 ∧
          |ThermoA.entropyRaw coldTickParticles 0 0.76| > 0.01)) ∧
    ((0.001 : ℝ) ≤ 0.05 ∧
      ¬(ThermoA.gradientStdDev [] > 0.01 ∧ |ThermoA.entropyRaw [] 0 0| > 0.01) ∧
      ThermoA.systemState 0.05 [] 0 0 = .Chaotic) := by
  have hraw : ThermoA.entropyRaw [] 0 0 = 0 := by
    unfold ThermoA.entropyRaw
    rw [zero_div, zero_div, sub_zero]
  have hnc : ¬(ThermoA.gradientStdDev [] > 0.01 ∧ |ThermoA.entropyRaw [] 0 0| > 0.01) := by
    intro hcontra
    have h2 := hcontra.2
    rw [hraw, abs_zero] at h2
    norm_num at h2
  exact ⟨⟨by norm_num,
      (C1_state_classification 0.0005 coldTickParticles 0 0.76).1 (by norm_num)⟩,
    ⟨by norm_num,
      ((C1_state_classification 0.05 coldTickParticles 0 0.76).2 (by norm_num)).1⟩,
    ⟨by norm_num, hnc,
      ((C1_state_classification 0.05 [] 0 0).2 (by norm_num)).2 hnc⟩⟩

/-! ## C4: energy with zero heat -/

theorem sliceIndex_halfBox : ThermoA.sliceIndex ThermoA.halfBox = 10 := by
  unfold ThermoA.sliceIndex ThermoA.halfBox ThermoA.BOX_SIZE ThermoA.SLICES
  norm_num

theorem sliceIndex_neg_halfBox2 : ThermoA.sliceIndex (-ThermoA.halfBox) = 0 := by
  unfold ThermoA.sliceIndex ThermoA.halfBox ThermoA.BOX_SIZE ThermoA.SLICES
  norm_num

theorem stepXB_noheat_lengthSq_le (p : Particle) :
    (ThermoB.stepXB 0 p).particle.velocity.lengthSq ≤ p.velocity.lengthSq := by
  by_cases habs : |p.position.x| > ThermoB.halfBox
  · rcases lt_abs.mp habs with h | h
    · rw [stepXB_hot_eq 0 p h]
      simp only [mul_zero, add_zero]
      rw [lengthSq_flipX]
    · rw [stepXB_cold_eq 0 p (lt_neg.mp h)]
      show (Vec3.smul 0.95 ⟨-p.velocity.x, p.velocity.y, p.velocity.z⟩).lengthSq
        ≤ p.velocity.lengthSq
      rw [Vec3.lengthSq_smul, lengthSq_flipX]
      have hnn := Vec3.lengthSq_nonneg p.velocity
      nlinarith
  · rw [stepXB_none_eq 0 p habs]

/-- C4 (amended): with `heat = 0`, the second-variant stepper never increases a
particle's kinetic energy (reflections are elastic, the cold wall only damps);
the first-variant stepper, however, multiplies the velocity by `1.01` at every
hot-wall bounce even with `heat = 0`, scaling kinetic energy by `1.0201`. -/
theorem C4_zero_heat_energy (p : Particle) (delta : ℝ) :
    (ThermoB.stepParticleB 0 delta p).particle.velocity.lengthSq
        ≤ p.velocity.lengthSq ∧
    ((p.position.addScaledVector p.velocity (delta * 60)).x > ThermoA.halfBox →
      (ThermoA.stepParticleA 0 delta p).particle.velocity.lengthSq
        = 1.0201 * p.velocity.lengthSq) := by
  constructor
  · simp only [ThermoB.stepParticleB]
    rw [stepZB_velocity_lengthSq, stepYB_velocity_lengthSq]
    exact stepXB_noheat_lengthSq_le ⟨p.position.addScaledVector p.velocity (delta * 60),
      p.velocity⟩
  · intro h
    simp only [ThermoA.stepParticleA]
    rw [stepZA_velocity_lengthSq, stepYA_velocity_lengthSq]
    rw [stepXA_hot_eq 0 ⟨p.position.addScaledVector p.velocity (delta * 60), p.velocity⟩ h]
    show (Vec3.smul 1.01 ⟨-p.velocity.x + jsSign (-p.velocity.x) * (0 * 0.1),
        p.velocity.y, p.velocity.z⟩).lengthSq = 1.0201 * p.velocity.lengthSq
    rw [show (0 : ℝ) * 0.1 = 0 by norm_num]
    simp only [mul_zero, add_zero]
    rw [Vec3.lengthSq_smul, lengthSq_flipX]
    norm_num

/-- C4 counterexample: with `heat = 0` a particle that bounces off the hot
wall of the first variant gains kinetic energy (`4 → 4.0804`), refuting the
claim that no wall interaction increases speed when `heat = 0`. -/
theorem C4_counterexample :
    (ThermoA.stepParticleA 0 (1 / 60) ⟨⟨2, 0, 0⟩, ⟨2, 0, 0⟩⟩).particle.velocity.lengthSq
      > (⟨⟨2, 0, 0⟩, ⟨2, 0, 0⟩⟩ : Particle).velocity.lengthSq := by
  have hmoved : (⟨(⟨⟨2, 0, 0⟩, ⟨2, 0, 0⟩⟩ : Particle).position.addScaledVector
      (⟨⟨2, 0, 0⟩, ⟨2, 0, 0⟩⟩ : Particle).velocity ((1 / 60) * 60),
      (⟨⟨2, 0, 0⟩, ⟨2, 0, 0⟩⟩ : Particle).velocity⟩ : Particle)
      = ⟨⟨4, 0, 0⟩, ⟨2, 0, 0⟩⟩ := by
    unfold Vec3.addScaledVector Vec3.add Vec3.smul
    norm_num
  simp only [ThermoA.stepParticleA]
  rw [hmoved, stepZA_velocity_lengthSq, stepYA_velocity_lengthSq]
  rw [stepXA_hot_eq 0 ⟨⟨4, 0, 0⟩, ⟨2, 0, 0⟩⟩
    (by show ThermoA.halfBox < (4 : ℝ)
        norm_num [ThermoA.halfBox, ThermoA.BOX_SIZE])]
  show (Vec3.smul 1.01 ⟨-(2 : ℝ) + jsSign (-(2 : ℝ)) * (0 * 0.1), 0, 0⟩).lengthSq
    > Vec3.lengthSq ⟨2, 0, 0⟩
  rw [jsSign_of_neg (by norm_num : (-(2 : ℝ)) < 0)]
  norm_num [Vec3.smul, Vec3.lengthSq]

/-- Witness for C4 at a concrete hot-wall collision. -/
theorem C4_zero_heat_energy_witness :
    ((⟨⟨2, 0, 0⟩, ⟨2, 0, 0⟩⟩ : Particle).position.addScaledVector
        (⟨⟨2, 0, 0⟩, ⟨2, 0, 0⟩⟩ : Particle).velocity ((1 / 60) * 60)).x > ThermoA.halfBox ∧
    (ThermoA.stepParticleA 0 (1 / 60) ⟨⟨2, 0, 0⟩, ⟨2, 0, 0⟩⟩).particle.velocity.lengthSq
      = 1.0201 * (⟨⟨2, 0, 0⟩, ⟨2, 0, 0⟩⟩ : Particle).velocity.lengthSq := by
  have h : ((⟨⟨2, 0, 0⟩, ⟨2, 0, 0⟩⟩ : Particle).position.addScaledVector
      (⟨⟨2, 0, 0⟩, ⟨2, 0, 0⟩⟩ : Particle).velocity ((1 / 60) * 60)).x > ThermoA.halfBox := by
    norm_num [Vec3.addScaledVector, Vec3.add, Vec3.smul, ThermoA.halfBox, ThermoA.BOX_SIZE]
  exact ⟨h, (C4_zero_heat_energy ⟨⟨2, 0, 0⟩, ⟨2, 0, 0⟩⟩ (1 / 60)).2 h⟩

/-! ## C5: bounded positions -/

/-- C5 (amended): the second-variant stepper keeps all three position
components inside `[-BOX_SIZE/2, BOX_SIZE/2]` after every tick; the
first-variant stepper guarantees this only for the X component — its Y and Z
wall checks reverse the velocity but leave the overshot position in place. -/
theorem C5_bounded_positions (heat delta : ℝ) (p : Particle) :
    (|(ThermoB.stepParticleB heat delta p).particle.position.x| ≤ ThermoB.halfBox ∧
     |(ThermoB.stepParticleB heat delta p).particle.position.y| ≤ ThermoB.halfBox ∧
     |(ThermoB.stepParticleB heat delta p).particle.position.z| ≤ ThermoB.halfBox) ∧
    |(ThermoA.stepParticleA heat delta p).particle.position.x| ≤ ThermoA.halfBox := by
  constructor
  · have hstepX : ∀ q : Particle,
        |(ThermoB.stepXB heat q).particle.position.x| ≤ ThermoB.halfBox := by
      intro q
      by_cases habs : |q.position.x| > ThermoB.halfBox
      · have hq : q.position.x ≠ 0 := by
          intro h0
          rw [h0, abs_zero] at habs
          linarith [halfBoxB_pos]
        rcases lt_abs.mp habs with h | h
        · rw [stepXB_hot_eq heat q h]
          show |ThermoB.halfBox| ≤ ThermoB.halfBox
          rw [abs_of_pos halfBoxB_pos]
        · rw [stepXB_cold_eq heat q (lt_neg.mp h)]
          show |-ThermoB.halfBox| ≤ ThermoB.halfBox
          rw [abs_neg, abs_of_pos halfBoxB_pos]
      · rw [stepXB_none_eq heat q habs]
        exact not_lt.mp habs
    refine ⟨?_, ?_, ?_⟩
    · simp only [ThermoB.stepParticleB]
      rw [stepZB_x, stepYB_x]
      exact hstepX _
    · simp only [ThermoB.stepParticleB]
      rw [stepZB_y]
      exact stepYB_y_bound _
    · simp only [ThermoB.stepParticleB]
      exact stepZB_z_bound _
  · have hstepX : ∀ q : Particle,
        |(ThermoA.stepXA heat q).particle.position.x| ≤ ThermoA.halfBox := by
      intro q
      by_cases habs : |q.position.x| > ThermoA.halfBox
      · rcases lt_abs.mp habs with h | h
        · rw [stepXA_hot_eq heat q h]
          show |ThermoA.halfBox| ≤ ThermoA.halfBox
          rw [abs_of_pos halfBoxA_pos]
        · rw [stepXA_cold_eq heat q (lt_neg.mp h)]
          show |-ThermoA.halfBox| ≤ ThermoA.halfBox
          rw [abs_neg, abs_of_pos halfBoxA_pos]
      · rw [stepXA_none_eq heat q habs]
        exact not_lt.mp habs
    simp only [ThermoA.stepParticleA]
    rw [show ∀ q : Particle, (ThermoA.stepZA (ThermoA.stepYA q)).position.x
        = q.position.x from fun q => by rw [stepZA_position, stepYA_position]]
    exact hstepX _

/-- C5 counterexample: in the first variant a particle crossing the top wall
ends the tick at `y = 4`, outside `[-BOX_SIZE/2, BOX_SIZE/2] = [-3, 3]`,
because the Y check reverses the velocity without clamping the position. -/
theorem C5_counterexample :
    (ThermoA.stepParticleA 0.05 (1 / 60) ⟨⟨0, 3, 0⟩, ⟨0, 1, 0⟩⟩).particle.position.y = 4 ∧
    ThermoA.halfBox < 4 := by
  have hmoved : (⟨(⟨⟨0, 3, 0⟩, ⟨0, 1, 0⟩⟩ : Particle).position.addScaledVector
      (⟨⟨0, 3, 0⟩, ⟨0, 1, 0⟩⟩ : Particle).velocity ((1 / 60) * 60),
      (⟨⟨0, 3, 0⟩, ⟨0, 1, 0⟩⟩ : Particle).velocity⟩ : Particle)
      = ⟨⟨0, 4, 0⟩, ⟨0, 1, 0⟩⟩ := by
    unfold Vec3.addScaledVector Vec3.add Vec3.smul
    norm_num
  constructor
  · simp only [ThermoA.stepParticleA]
    rw [hmoved, stepZA_position]
    rw [stepXA_none_eq 0.05 ⟨⟨0, 4, 0⟩, ⟨0, 1, 0⟩⟩
      (by show ¬|(0 : ℝ)| > ThermoA.halfBox
          rw [abs_zero]
          exact not_lt.mpr halfBoxA_pos.le)]
    show (ThermoA.stepYA ⟨⟨0, 4, 0⟩, ⟨0, 1, 0⟩⟩).position.y = 4
    rw [stepYA_position]
  · norm_num [ThermoA.halfBox, ThermoA.BOX_SIZE]

/-! ## C10: hot-wall clamping excludes particles from the histogram -/

/-- C10: a particle clamped to the hot wall sits at `x = halfBox`, whose slice
index is exactly `10`; that fails the `index < SLICES` guard, so the particle
is excluded from `sliceEnergies` and `sliceCounts` for the tick, while a
particle clamped to the cold wall gets slice index `0` and is counted. -/
theorem C10_wall_clamp_slice_asymmetry (heat delta : ℝ) (p : Particle) :
    ((p.position.addScaledVector p.velocity (delta * 60)).x > ThermoA.halfBox →
      (ThermoA.stepParticleA heat delta p).particle.position.x = ThermoA.halfBox ∧
      ThermoA.sliceIndex ThermoA.halfBox = 10 ∧
      ¬(ThermoA.sliceIndex ThermoA.halfBox < (ThermoA.SLICES : ℤ)) ∧
      ∀ i : Fin ThermoA.SLICES,
        ThermoA.sliceCount [(ThermoA.stepParticleA heat delta p).particle] i = 0 ∧
        ThermoA.sliceEnergy [(ThermoA.stepParticleA heat delta p).particle] i = 0) ∧
    ((p.position.addScaledVector p.velocity (delta * 60)).x < -ThermoA.halfBox →
      (ThermoA.stepParticleA heat delta p).particle.position.x = -ThermoA.halfBox ∧
      ThermoA.sliceIndex (-ThermoA.halfBox) = 0 ∧
      ThermoA.sliceCount [(ThermoA.stepParticleA heat delta p).particle] 0 = 1) := by
  constructor
  · intro h
    have hx : (ThermoA.stepParticleA heat delta p).particle.position.x = ThermoA.halfBox := by
      simp only [ThermoA.stepParticleA]
      rw [stepZA_position, stepYA_position,
        stepXA_hot_eq heat ⟨p.position.addScaledVector p.velocity (delta * 60), p.velocity⟩ h]
    refine ⟨hx, sliceIndex_halfBox, ?_, ?_⟩
    · rw [sliceIndex_halfBox]
      show ¬(10 : ℤ) < ((10 : ℕ) : ℤ)
      omega
    · intro i
      have hi : (i : ℕ) < 10 := i.isLt
      have hne : ThermoA.sliceIndex
          ((ThermoA.stepParticleA heat delta p).particle.position.x) ≠ ((i : ℕ) : ℤ) := by
        rw [hx, sliceIndex_halfBox]
        omega
      constructor
      · simp [ThermoA.sliceCount, hne]
      · simp [ThermoA.sliceEnergy, hne]
  · intro h
    have hx : (ThermoA.stepParticleA heat delta p).particle.position.x = -ThermoA.halfBox := by
      simp only [ThermoA.stepParticleA]
      rw [stepZA_position, stepYA_position,
        stepXA_cold_eq heat ⟨p.position.addScaledVector p.velocity (delta * 60), p.velocity⟩ h]
    have heq : ThermoA.sliceIndex
        ((ThermoA.stepParticleA heat delta p).particle.position.x) = ((0 : ℕ) : ℤ) := by
      rw [hx, sliceIndex_neg_halfBox2]
      rfl
    refine ⟨hx, sliceIndex_neg_halfBox2, ?_⟩
    simp [ThermoA.sliceCount, heq]

/-- Witness for C10: one concrete hot-wall tick and one cold-wall tick. -/
theorem C10_wall_clamp_slice_asymmetry_witness :
    (((⟨⟨2, 0, 0⟩, ⟨2, 0, 0⟩⟩ : Particle).position.addScaledVector
        (⟨⟨2, 0, 0⟩, ⟨2, 0, 0⟩⟩ : Particle).velocity ((1 / 60) * 60)).x > ThermoA.halfBox ∧
      (ThermoA.stepParticleA 0.05 (1 / 60) ⟨⟨2, 0, 0⟩, ⟨2, 0, 0⟩⟩).particle.position.x
        = ThermoA.halfBox) ∧
    (((⟨⟨-2, 0, 0⟩, ⟨-2, 0, 0⟩⟩ : Particle).position.addScaledVector
        (⟨⟨-2, 0, 0⟩, ⟨-2, 0, 0⟩⟩ : Particle).velocity ((1 / 60) * 60)).x < -ThermoA.halfBox ∧
      ThermoA.sliceCount
        [(ThermoA.stepParticleA 0.05 (1 / 60) ⟨⟨-2, 0, 0⟩, ⟨-2, 0, 0⟩⟩).particle] 0 = 1) := by
  have hhot : ((⟨⟨2, 0, 0⟩, ⟨2, 0, 0⟩⟩ : Particle).position.addScaledVector
      (⟨⟨2, 0, 0⟩, ⟨2, 0, 0⟩⟩ : Particle).velocity ((1 / 60) * 60)).x > ThermoA.halfBox := by
    norm_num [Vec3.addScaledVector, Vec3.add, Vec3.smul, ThermoA.halfBox, ThermoA.BOX_SIZE]
  have hcold : ((⟨⟨-2, 0, 0⟩, ⟨-2, 0, 0⟩⟩ : Particle).position.addScaledVector
      (⟨⟨-2, 0, 0⟩, ⟨-2, 0, 0⟩⟩ : Particle).velocity ((1 / 60) * 60)).x < -ThermoA.halfBox := by
    norm_num [Vec3.addScaledVector, Vec3.add, Vec3.smul, ThermoA.halfBox, ThermoA.BOX_SIZE]
  exact ⟨⟨hhot,
      ((C10_wall_clamp_slice_asymmetry 0.05 (1 / 60) ⟨⟨2, 0, 0⟩, ⟨2, 0, 0⟩⟩).1 hhot).1⟩,
    ⟨hcold,
      ((C10_wall_clamp_slice_asymmetry 0.05 (1 / 60) ⟨⟨-2, 0, 0⟩, ⟨-2, 0, 0⟩⟩).2 hcold).2.2⟩⟩

/-! ## C6: Gray–Scott double-buffer non-interference -/

/-- C6: one Gray–Scott step on the uniform grid `u = 1`, `v = 0` leaves every
cell unchanged: the Laplacian of both channels is zero, the reaction term
`u·v²` is zero, the relaxation term `feed·(1−u)` is zero, and the stepped grid
equals the original — all neighbour reads observing pre-step values. -/
theorem C6_gray_scott_uniform_fixed (feed kill : ℝ) (i j : ℤ) :
    RD.laplacian RD.uniformGrid i j = (0, 0) ∧
    (RD.uniformGrid i j).1 * (RD.uniformGrid i j).2 * (RD.uniformGrid i j).2 = 0 ∧
    feed * (1 - (RD.uniformGrid i j).1) = 0 ∧
    RD.grayScottStep feed kill RD.uniformGrid = RD.uniformGrid := by
  refine ⟨?_, ?_, ?_, ?_⟩
  · unfold RD.laplacian RD.uniformGrid
    norm_num
  · unfold RD.uniformGrid
    norm_num
  · unfold RD.uniformGrid
    norm_num
  · funext a b
    unfold RD.grayScottStep RD.stepCell RD.laplacian RD.uniformGrid RD.clamp01 RD.Du RD.Dv RD.dt
    norm_num

/-! ## C7: boid speed clamp and position wrapping -/

theorem length_clampLength_le (v : Vec3) (hi : ℝ) (h : 0 ≤ hi) :
    (v.clampLength 0 hi).length ≤ hi := by
  unfold Vec3.clampLength
  rw [Vec3.length_smul]
  unfold Vec3.divideScalar
  rw [Vec3.length_smul]
  by_cases hv : v.length = 0
  · rw [hv, mul_zero, mul_zero]
    exact h
  · rw [if_neg hv]
    have hpos : 0 < v.length := lt_of_le_of_ne (Vec3.length_nonneg v) (Ne.symm hv)
    rw [abs_of_pos (by positivity : (0 : ℝ) < 1 / v.length), one_div,
      inv_mul_cancel₀ hv, mul_one,
      abs_of_nonneg (le_max_left 0 (min hi v.length))]
    exact max_le h (min_le_left hi v.length)

theorem wrap1_mem (x : ℝ) : |Boids.wrap1 x| ≤ Boids.BOUNDS / 2 := by
  have hb : (0 : ℝ) < Boids.BOUNDS / 2 := by norm_num [Boids.BOUNDS]
  simp only [Boids.wrap1]
  split_ifs with h1 h2 h3
  · rw [abs_of_pos hb]
  · rw [abs_neg, abs_of_pos hb]
  · rw [abs_of_pos hb]
  · exact abs_le.mpr ⟨not_lt.mp h3, not_lt.mp h1⟩

theorem wrap1_high {x : ℝ} (h : Boids.BOUNDS / 2 < x) :
    Boids.wrap1 x = -(Boids.BOUNDS / 2) := by
  simp only [Boids.wrap1]
  rw [if_pos h, if_neg (lt_irrefl (-(Boids.BOUNDS / 2)))]

theorem wrap1_low {x : ℝ} (h : x < -(Boids.BOUNDS / 2)) :
    Boids.wrap1 x = Boids.BOUNDS / 2 := by
  have hb : -(Boids.BOUNDS / 2) < Boids.BOUNDS / 2 := by norm_num [Boids.BOUNDS]
  simp only [Boids.wrap1]
  rw [if_neg (not_lt.mpr (le_of_lt (lt_trans h hb))), if_pos h]

/-- C7: after every `Boid.update` the velocity length is at most `MAX_SPEED`
and every position component lies in `[-BOUNDS/2, BOUNDS/2]`; a boundary
crossing is handled by wrapping the coordinate to the opposite side of the
domain (not by reflecting it). -/
theorem C7_boid_invariants (b : Boids.BoidState) :
    (Boids.update b).velocity.length ≤ Boids.MAX_SPEED ∧
    (|(Boids.update b).position.x| ≤ Boids.BOUNDS / 2 ∧
     |(Boids.update b).position.y| ≤ Boids.BOUNDS / 2 ∧
     |(Boids.update b).position.z| ≤ Boids.BOUNDS / 2) ∧
    (∀ x : ℝ, Boids.BOUNDS / 2 < x → Boids.wrap1 x = -(Boids.BOUNDS / 2)) ∧
    (∀ x : ℝ, x < -(Boids.BOUNDS / 2) → Boids.wrap1 x = Boids.BOUNDS / 2) := by
  refine ⟨?_, ⟨?_, ?_, ?_⟩, fun x hx => wrap1_high hx, fun x hx => wrap1_low hx⟩
  · simp only [Boids.update]
    exact length_clampLength_le _ _ (by norm_num [Boids.MAX_SPEED])
  · simp only [Boids.update, Boids.wrap]
    exact wrap1_mem _
  · simp only [Boids.update, Boids.wrap]
    exact wrap1_mem _
  · simp only [Boids.update, Boids.wrap]
    exact wrap1_mem _

/-- Witness for C7: wrapping at concrete out-of-range coordinates. -/
theorem C7_boid_invariants_witness :
    (Boids.BOUNDS / 2 < 13 ∧ Boids.wrap1 13 = -(Boids.BOUNDS / 2)) ∧
    ((-13 : ℝ) < -(Boids.BOUNDS / 2) ∧ Boids.wrap1 (-13) = Boids.BOUNDS / 2) := by
  have h1 : Boids.BOUNDS / 2 < (13 : ℝ) := by norm_num [Boids.BOUNDS]
  have h2 : (-13 : ℝ) < -(Boids.BOUNDS / 2) := by norm_num [Boids.BOUNDS]
  exact ⟨⟨h1, (C7_boid_invariants ⟨⟨0, 0, 0⟩, ⟨0, 0, 0⟩, ⟨0, 0, 0⟩⟩).2.2.1 13 h1⟩,
    ⟨h2, (C7_boid_invariants ⟨⟨0, 0, 0⟩, ⟨0, 0, 0⟩, ⟨0, 0, 0⟩⟩).2.2.2 (-13) h2⟩⟩

/-! ## C8: the separation accumulation -/

theorem normalize_div_eq_divSq (w : Vec3) (h : 0 < w.length) :
    (w.normalize).divideScalar w.length = w.divideScalar (w.length * w.length) := by
  have hne : w.length ≠ 0 := ne_of_gt h
  unfold Vec3.normalize
  rw [if_neg hne]
  unfold Vec3.divideScalar Vec3.smul
  ext
  · show 1 / w.length * (1 / w.length * w.x) = 1 / (w.length * w.length) * w.x
    field_simp
  · show 1 / w.length * (1 / w.length * w.y) = 1 / (w.length * w.length) * w.y
    field_simp
  · show 1 / w.length * (1 / w.length * w.z) = 1 / (w.length * w.length) * w.z
    field_simp

/-- C8 (amended): the accumulated separation vector equals the sum over every
other boid at distance `0 < d < SEPARATION_DISTANCE` of `(self − other) / d²`
— the unit repulsion vector further divided by the distance, i.e. a vector of
magnitude `1/d`, not `1`. -/
theorem C8_separation_sum (self : Vec3) (others : List Vec3) :
    Boids.flockSeparation self others = Boids.separationBySquare self others := by
  unfold Boids.flockSeparation Boids.separationBySquare
  apply List.foldl_ext
  intro acc o _
  by_cases hd : 0 < self.distanceTo o ∧ self.distanceTo o < Boids.SEPARATION_DISTANCE
  · have hperc : self.distanceTo o < Boids.PERCEPTION_RADIUS := by
      have h2 := hd.2
      norm_num [Boids.SEPARATION_DISTANCE] at h2
      norm_num [Boids.PERCEPTION_RADIUS]
      linarith
    rw [if_pos ⟨hd.1, hperc⟩, if_pos hd.2, if_pos hd]
    unfold Vec3.distanceTo
    rw [normalize_div_eq_divSq _ hd.1]
  · rw [if_neg hd]
    rcases not_and_or.mp hd with h | h
    · rw [if_neg fun hc => h hc.1]
    · by_cases hp : 0 < self.distanceTo o ∧ self.distanceTo o < Boids.PERCEPTION_RADIUS
      · rw [if_pos hp, if_neg (not_lt.mpr (not_lt.mp h))]
      · rw [if_neg hp]

/-- C8 counterexample: for a single neighbour at distance `1/2` the code
accumulates `(-2, 0, 0)` (magnitude `2 = 1/d`), while the claimed sum of
`(self − other)/d` is `(-1, 0, 0)` (magnitude `1`). -/
theorem C8_counterexample :
    Boids.flockSeparation ⟨0, 0, 0⟩ [⟨1 / 2, 0, 0⟩] = ⟨-2, 0, 0⟩ ∧
    Boids.claimedSeparation ⟨0, 0, 0⟩ [⟨1 / 2, 0, 0⟩] = ⟨-1, 0, 0⟩ ∧
    (⟨-2, 0, 0⟩ : Vec3) ≠ ⟨-1, 0, 0⟩ := by
  have hsub : Vec3.sub ⟨0, 0, 0⟩ ⟨1 / 2, 0, 0⟩ = (⟨-(1 / 2), 0, 0⟩ : Vec3) := by
    unfold Vec3.sub
    norm_num
  have hlen : Vec3.length ⟨-(1 / 2), 0, 0⟩ = 1 / 2 := by
    unfold Vec3.length Vec3.lengthSq
    rw [show (-(1 / 2) : ℝ) ^ 2 + (0 : ℝ) ^ 2 + (0 : ℝ) ^ 2 = (1 / 2) ^ 2 by norm_num]
    exact Real.sqrt_sq (by norm_num)
  have hd : Vec3.distanceTo ⟨0, 0, 0⟩ ⟨1 / 2, 0, 0⟩ = 1 / 2 := by
    unfold Vec3.distanceTo
    rw [hsub, hlen]
  have hnorm : Vec3.normalize ⟨-(1 / 2), 0, 0⟩ = ⟨-1, 0, 0⟩ := by
    unfold Vec3.normalize
    rw [hlen, if_neg (by norm_num : (1 / 2 : ℝ) ≠ 0)]
    unfold Vec3.divideScalar Vec3.smul
    norm_num
  have hguard : (0 : ℝ) < 1 / 2 ∧ (1 / 2 : ℝ) < Boids.PERCEPTION_RADIUS := by
    norm_num [Boids.PERCEPTION_RADIUS]
  refine ⟨?_, ?_, ?_⟩
  · unfold Boids.flockSeparation
    simp only [List.foldl_cons, List.foldl_nil]
    rw [hd, if_pos hguard,
      if_pos (by norm_num [Boids.SEPARATION_DISTANCE] : (1 / 2 : ℝ) < Boids.SEPARATION_DISTANCE)]
    rw [hsub, hnorm]
    unfold Vec3.divideScalar Vec3.smul Vec3.add Vec3.zero
    norm_num
  · unfold Boids.claimedSeparation
    simp only [List.foldl_cons, List.foldl_nil]
    rw [hd, if_pos (by norm_num [Boids.SEPARATION_DISTANCE] :
      (0 : ℝ) < 1 / 2 ∧ (1 / 2 : ℝ) < Boids.SEPARATION_DISTANCE)]
    rw [hsub]
    unfold Vec3.divideScalar Vec3.smul Vec3.add Vec3.zero
    norm_num
  · intro hcontra
    have hx := congrArg Vec3.x hcontra
    norm_num at hx

/-- C9: when the API-key credential is absent (JavaScript-falsy), for every
`params`/`data` input `generateExplanation` resolves to the fixed advisory
string and is not a network request (hence cannot throw). -/
theorem C9_no_key_degrades (apiKey : Option String) (params : Gemini.SimulationParams)
    (data : SimulationData) (h : Gemini.apiKeyTruthy apiKey = false) :
    Gemini.generateExplanation apiKey params data
        = .resolved Gemini.advisoryMessage ∧
    ∀ m p d, Gemini.generateExplanation apiKey params data
        ≠ .networkRequest m p d := by
  unfold Gemini.generateExplanation
  rw [h]
  simp

/-- Witness for C9 at the concrete input `apiKey = none`. -/
theorem C9_no_key_degrades_witness :
    Gemini.apiKeyTruthy none = false ∧
    Gemini.generateExplanation none ⟨100, 0.05, false⟩ ⟨[], 0, .Initializing⟩
      = .resolved Gemini.advisoryMessage :=
  ⟨rfl, (C9_no_key_degrades none ⟨100, 0.05, false⟩ ⟨[], 0, .Initializing⟩ rfl).1⟩

end DS
